import Mathlib

/-!
Verification of the BlockReGenerator regeneration state machine
(src/scripts/main.js) against its natural-language specification.

The JavaScript source is shallowly embedded as follows.

* JavaScript integers (coordinates, tick counters) are modelled as `Int`;
  all values that occur in this program are far below 2^53, so JS number
  arithmetic on them is exact integer arithmetic.
* The dynamic-property store (`world.getDynamicProperty` /
  `world.setDynamicProperty`) is a flat map from string keys to stored
  values.  The code always stores `JSON.stringify(value)` and reads back
  with `JSON.parse`; we model the stored representation at the level of
  the JSON data model (`JValue`), treating the host's
  stringify/parse string layer as the identity on JSON values.
* `world.sendMessage` / `player.sendMessage` and
  `dimension.setBlockType` are fire-and-forget host calls; each handler
  is modelled as a function returning the new store together with the
  list of block mutations and messages it issued, in program order.
* The handlers type their parsed JSON by field access; we model a stored
  value "being a record" as `parseBlockInfo` succeeding (all eight fields
  present with their documented types).  JS truthiness of a parsed record
  object is then truth of that parse: a parsed record object is always
  truthy.
* The configuration form stores its three text fields; `createBlockInfo`
  applies `parseInt` to the `genTime` field at use.  `Settings.genTime`
  models the parsed integer value of that field.
-/

/-- Coordinate triple of a block (JS `{x, y, z}` with integer values). -/
structure Vec3 where
  x : Int
  y : Int
  z : Int
deriving DecidableEq, Repr

/-- The data of a world block the script reads: its location, the id of its
dimension, and whether it is air. -/
structure Block where
  location : Vec3
  dimensionId : String
  isAir : Bool
deriving DecidableEq, Repr

/-- A stored JSON value (the image of `JSON.stringify`/`JSON.parse`).
Arrays do not occur in this program and are omitted. -/
inductive JValue where
  | null : JValue
  | bool (b : Bool) : JValue
  | num (n : Int) : JValue
  | str (s : String) : JValue
  | obj (fields : List (String × JValue)) : JValue

/-- CONSTANTS.PROPERTY_PREFIX: prefix of every block-record key. -/
def propPrefixStr : String := "block:"

/-- JS `String.prototype.startsWith(pre)`. -/
def strStartsWith (s pre : String) : Bool := pre.data.isPrefixOf s.data

/-- CONSTANTS.SETTING_KEY: key of the global configuration singleton. -/
def SETTING_KEY : String := "blockReGeneratorSetting"

/-- CONSTANTS.TRIGGER_ITEM: item id that triggers configuration/arming. -/
def TRIGGER_ITEM : String := "minecraft:ominous_trial_key"

/-- CONSTANTS.COORDINATE_OFFSET. -/
def COORDINATE_OFFSET : Int := 30000000

/-- CONSTANTS.COORDINATE_DIGITS. -/
def COORDINATE_DIGITS : Nat := 5

/-- Decimal digit list (most significant first) of a natural number, with
explicit fuel so that the definition is structural.  With fuel `> n` this
is the decimal representation produced by JS `Number.prototype.toString`
for a non-negative integer. -/
def natDecAux : Nat → Nat → List Char
  | 0, _ => []
  | f + 1, n =>
    if n < 10 then [Nat.digitChar n]
    else natDecAux f (n / 10) ++ [Nat.digitChar (n % 10)]

/-- Decimal string of a natural number (JS `toString` on a non-negative
integer value). -/
def jsNatToString (n : Nat) : String := String.mk (natDecAux (n + 1) n)

/-- JS `Number.prototype.toString` for an integer value. -/
def jsIntToString (v : Int) : String :=
  if v < 0 then "-" ++ jsNatToString v.natAbs else jsNatToString v.toNat

/-- JS `String.prototype.padStart(w, c)`: left-pad to length `w` with `c`
(no change when already at least `w` long). -/
def padStart (s : String) (w : Nat) (c : Char) : String :=
  String.mk (List.replicate (w - s.length) c) ++ s

/-- JS `String.prototype.slice(-w)`: the last `w` characters (the whole
string when it is shorter than `w`). -/
def sliceLast (s : String) (w : Nat) : String :=
  String.mk (s.data.drop (s.data.length - w))

/-- One coordinate's contribution to the location id:
`coord.toString().padStart(COORDINATE_DIGITS, '0').slice(-COORDINATE_DIGITS)`
applied to the offset coordinate. -/
def encodeCoord (c : Int) : String :=
  sliceLast (padStart (jsIntToString (c + COORDINATE_OFFSET)) COORDINATE_DIGITS '0')
    COORDINATE_DIGITS

/-- getLocationId: the 15-character id obtained by encoding each offset
coordinate to 5 characters and joining. -/
def getLocationId (x y z : Int) : String :=
  encodeCoord x ++ encodeCoord y ++ encodeCoord z

/-- DynamicPropertyManager.getBlockKey. -/
def getBlockKey (locationId : String) : String := propPrefixStr ++ locationId

/-- The key of the record governing a given block. -/
def blockKeyOf (b : Block) : String :=
  getBlockKey (getLocationId b.location.x b.location.y b.location.z)

/-- The dynamic-property store: a flat map from keys to stored JSON
values (`none` = property not set). -/
def Store := String → Option JValue

/-- The store with no properties set. -/
def emptyStore : Store := fun _ => none

/-- DynamicPropertyManager.set (the stored representation of `value`). -/
def dpSetRaw (st : Store) (k : String) (j : JValue) : Store :=
  fun k' => if k' = k then some j else st k'

/-- DynamicPropertyManager.remove (`setDynamicProperty(key, null)`). -/
def dpRemoveRaw (st : Store) (k : String) : Store :=
  fun k' => if k' = k then none else st k'

/-- The global configuration collected by the settings form.  The form
stores three strings; `genTime` models the `parseInt` image of the first
field (the spec's `GlobalConfig.generationTicks`). -/
structure Settings where
  genTime : Int
  blockType : String
  midBlockType : String
deriving DecidableEq, Repr

/-- A regeneration record as created by `BlockManager.createBlockInfo`
and persisted under a `block:`-prefixed key. -/
structure BlockInfo where
  location : Vec3
  time : Int
  genTime : Int
  blockType : String
  midBlockType : String
  dimensionId : String
  configured : Bool
  breaked : Bool
deriving DecidableEq, Repr

/-- BlockManager.createBlockInfo. -/
def createBlockInfo (b : Block) (s : Settings) : BlockInfo :=
  { location := b.location
    time := s.genTime
    genTime := s.genTime
    blockType := s.blockType
    midBlockType := s.midBlockType
    dimensionId := b.dimensionId
    configured := false
    breaked := false }

/-- BlockManager.isValidBlockInfo: JS truthiness of
`blockInfo && blockInfo.location && blockInfo.blockType && blockInfo.midBlockType`.
A parsed record and its location object are always truthy; string
truthiness is non-emptiness. -/
def isValidBlockInfo (bi : BlockInfo) : Bool :=
  !bi.blockType.isEmpty && !bi.midBlockType.isEmpty

/-- JSON serialization of a coordinate object. -/
def serializeVec3 (v : Vec3) : JValue :=
  .obj [("x", .num v.x), ("y", .num v.y), ("z", .num v.z)]

/-- JSON serialization of a regeneration record, fields in the source's
property order. -/
def serializeBlockInfo (bi : BlockInfo) : JValue :=
  .obj [("location", serializeVec3 bi.location),
        ("time", .num bi.time),
        ("genTime", .num bi.genTime),
        ("blockType", .str bi.blockType),
        ("midBlockType", .str bi.midBlockType),
        ("dimensionId", .str bi.dimensionId),
        ("configured", .bool bi.configured),
        ("breaked", .bool bi.breaked)]

/-- Reading a coordinate object out of a parsed JSON value. -/
def parseVec3 (j : JValue) : Option Vec3 :=
  match j with
  | .obj fields =>
    match fields.lookup "x", fields.lookup "y", fields.lookup "z" with
    | some (.num x), some (.num y), some (.num z) => some ⟨x, y, z⟩
    | _, _, _ => none
  | _ => none

/-- Reading a regeneration record out of a parsed JSON value: all eight
fields present with their documented types. -/
def parseBlockInfo (j : JValue) : Option BlockInfo :=
  match j with
  | .obj fields =>
    match fields.lookup "location", fields.lookup "time", fields.lookup "genTime",
          fields.lookup "blockType", fields.lookup "midBlockType",
          fields.lookup "dimensionId", fields.lookup "configured",
          fields.lookup "breaked" with
    | some loc, some (.num t), some (.num g), some (.str bt), some (.str mbt),
      some (.str dim), some (.bool c), some (.bool br) =>
      match parseVec3 loc with
      | some v => some ⟨v, t, g, bt, mbt, dim, c, br⟩
      | none => none
    | _, _, _, _, _, _, _, _ => none
  | _ => none

/-- JSON serialization of the settings singleton (the form stores the
`genTime` text field; we store its parsed integer value). -/
def serializeSettings (s : Settings) : JValue :=
  .obj [("genTime", .num s.genTime), ("blockType", .str s.blockType),
        ("midBlockType", .str s.midBlockType)]

/-- Reading the settings singleton out of a parsed JSON value. -/
def parseSettings (j : JValue) : Option Settings :=
  match j with
  | .obj fields =>
    match fields.lookup "genTime", fields.lookup "blockType",
          fields.lookup "midBlockType" with
    | some (.num g), some (.str bt), some (.str mbt) => some ⟨g, bt, mbt⟩
    | _, _, _ => none
  | _ => none

/-- DynamicPropertyManager.get at a record key, typed: the stored JSON
value, if any, read as a regeneration record. -/
def getRecord (st : Store) (k : String) : Option BlockInfo :=
  (st k).bind parseBlockInfo

/-- DynamicPropertyManager.get at SETTING_KEY, typed. -/
def getSettings (st : Store) : Option Settings :=
  (st SETTING_KEY).bind parseSettings

/-- A block mutation issued through `BlockManager.setBlock`
(`dimension.setBlockType(location, blockType)`), fire-and-forget. -/
structure Mutation where
  dimensionId : String
  location : Vec3
  blockType : String
deriving DecidableEq, Repr

/-- Message shown by `settingBlock` when a record already exists. -/
def alreadyConfiguredMsg : String := "§cこのブロックは既に設定されています"

/-- Message shown by the interaction handler after invoking `settingBlock`. -/
def blockConfiguredMsg : String := "§aブロックを設定しました。"

/-- Message shown by the interaction handler when no settings are stored. -/
def settingNotFoundMsg : String := "§c設定が見つかりません。スニーク+使用で設定してください。"

/-- Message shown by the break-before handler when it vetoes a break. -/
def cannotBreakMsg : String := "§c再生成中のブロックは破壊できません"

/-- Message shown by the break-after handler in creative mode. -/
def removedSettingMsg : String := "§eクリエイティブモードでブロックの設定を削除しました"

/-- Result of `settingBlock`: the store afterwards, the returned boolean,
and the `world.sendMessage` calls issued. -/
structure ArmResult where
  store : Store
  ok : Bool
  worldMsgs : List String

/-- settingBlock: refuse when a record already exists at the block's key,
otherwise create and persist a fresh record. -/
def settingBlock (b : Block) (s : Settings) (st : Store) : ArmResult :=
  let blockKey := blockKeyOf b
  match getRecord st blockKey with
  | some _ => ⟨st, false, [alreadyConfiguredMsg]⟩
  | none =>
    ⟨dpSetRaw st blockKey (serializeBlockInfo (createBlockInfo b s)), true, []⟩

/-- Result of one per-record engine step: the store afterwards and the
block mutations issued. -/
structure UpdateResult where
  store : Store
  mutations : List Mutation

/-- handleBlockUpdate: first-time setup, countdown / restore while broken,
idle otherwise. -/
def handleBlockUpdate (dataId : String) (bi : BlockInfo) (st : Store) : UpdateResult :=
  if bi.configured = false then
    ⟨dpSetRaw st dataId (serializeBlockInfo { bi with configured := true }),
     [⟨bi.dimensionId, bi.location, bi.blockType⟩]⟩
  else if bi.breaked = true then
    if bi.time ≤ 0 then
      ⟨dpSetRaw st dataId
         (serializeBlockInfo { bi with breaked := false, time := bi.genTime }),
       [⟨bi.dimensionId, bi.location, bi.blockType⟩]⟩
    else
      ⟨dpSetRaw st dataId (serializeBlockInfo { bi with time := bi.time - 1 }), []⟩
  else ⟨st, []⟩

/-- One iteration of the per-tick scan loop body at key `k`: skip keys not
present, delete keys whose value is not a valid record, otherwise run
`handleBlockUpdate`. -/
def scanKey (k : String) (st : Store) : UpdateResult :=
  match st k with
  | none => ⟨st, []⟩
  | some j =>
    match parseBlockInfo j with
    | none => ⟨dpRemoveRaw st k, []⟩
    | some bi =>
      if isValidBlockInfo bi then handleBlockUpdate k bi st
      else ⟨dpRemoveRaw st k, []⟩

/-- Running the scan loop body at key `k` for `n` consecutive ticks,
collecting the mutations of all ticks in order. -/
def iterateScan (k : String) : Nat → Store → UpdateResult
  | 0, st => ⟨st, []⟩
  | n + 1, st =>
    let r := scanKey k st
    let r' := iterateScan k n r.store
    ⟨r'.store, r.mutations ++ r'.mutations⟩

/-- Result of the break-before handler: the (unchanged) store, the value
of the `cancel` flag, and the messages sent to the breaking player. -/
structure BreakBeforeResult where
  store : Store
  cancel : Bool
  playerMsgs : List String

/-- world.beforeEvents.playerBreakBlock handler: veto the break of a
placeholder whose countdown is still running. -/
def breakBeforeHandler (b : Block) (st : Store) : BreakBeforeResult :=
  let blockKey := blockKeyOf b
  match getRecord st blockKey with
  | none => ⟨st, false, []⟩
  | some bi =>
    if bi.breaked = true ∧ 0 < bi.time then ⟨st, true, [cannotBreakMsg]⟩
    else ⟨st, false, []⟩

/-- Game mode of the breaking player (only creative is distinguished). -/
inductive GameMode where
  | survival
  | creative
  | adventure
  | spectator
deriving DecidableEq, Repr

/-- Result of the break-after handler: the store afterwards, the block
mutations issued, and the messages sent to the breaking player. -/
structure BreakAfterResult where
  store : Store
  mutations : List Mutation
  playerMsgs : List String

/-- world.afterEvents.playerBreakBlock handler: delete the record in
creative mode, otherwise place the placeholder and restart the countdown. -/
def breakAfterHandler (mode : GameMode) (b : Block) (st : Store) : BreakAfterResult :=
  let blockKey := blockKeyOf b
  match getRecord st blockKey with
  | none => ⟨st, [], []⟩
  | some bi =>
    if mode = GameMode.creative then
      ⟨dpRemoveRaw st blockKey, [], [removedSettingMsg]⟩
    else
      ⟨dpSetRaw st blockKey
         (serializeBlockInfo { bi with breaked := true, time := bi.genTime }),
       [⟨bi.dimensionId, bi.location, bi.midBlockType⟩], []⟩

/-- Result of the interaction handler: the store afterwards, the messages
sent to the interacting player, and the `world.sendMessage` calls. -/
structure InteractResult where
  store : Store
  playerMsgs : List String
  worldMsgs : List String

/-- world.beforeEvents.playerInteractWithBlock handler: on a first,
non-sneaking use of the trigger item on a non-air block, arm the block
with the stored settings (discarding `settingBlock`'s result) and report
success. -/
def interactBeforeHandler (isFirstEvent : Bool) (itemTypeId : String)
    (isSneaking : Bool) (b : Block) (st : Store) : InteractResult :=
  if isFirstEvent = false then ⟨st, [], []⟩
  else if itemTypeId ≠ TRIGGER_ITEM ∨ b.isAir = true ∨ isSneaking = true then
    ⟨st, [], []⟩
  else
    match getSettings st with
    | none => ⟨st, [settingNotFoundMsg], []⟩
    | some s =>
      let r := settingBlock b s st
      ⟨r.store, [blockConfiguredMsg], r.worldMsgs⟩

/-- One observable transition of the persisted state, parametrised by a
constraint `armOK` on the settings used by arming events (the spec's
`GlobalConfig` contract) and a constraint `breakOK` on records hit by a
non-creative break-after event.  Instantiating both with trivially true
predicates gives the unconstrained system. -/
inductive Step (armOK : Settings → Prop) (breakOK : BlockInfo → Prop) :
    Store → Store → Prop where
  | configure (s : Settings) (st : Store) :
      Step armOK breakOK st (dpSetRaw st SETTING_KEY (serializeSettings s))
  | arm (b : Block) (s : Settings) (st : Store) : armOK s →
      Step armOK breakOK st (settingBlock b s st).store
  | tick (k : String) (st : Store) : strStartsWith k propPrefixStr = true →
      Step armOK breakOK st (scanKey k st).store
  | breakBefore (b : Block) (st : Store) :
      Step armOK breakOK st (breakBeforeHandler b st).store
  | breakAfter (mode : GameMode) (b : Block) (st : Store) :
      (∀ bi, getRecord st (blockKeyOf b) = some bi → mode ≠ GameMode.creative →
        breakOK bi) →
      Step armOK breakOK st (breakAfterHandler mode b st).store

/-- The persisted states reachable from the empty store by arming,
configuration, break interception and per-tick updates. -/
def Reachable (armOK : Settings → Prop) (breakOK : BlockInfo → Prop) (st : Store) : Prop :=
  Relation.ReflTransGen (Step armOK breakOK) emptyStore st

/-- Numeric value of a decimal digit character. -/
def digitVal (c : Char) : Nat := c.toNat - 48

/-- Value of a big-endian decimal digit string. -/
def strNatVal (l : List Char) : Nat :=
  l.foldl (fun a c => a * 10 + digitVal c) 0

/-- A coordinate within the declared coordinate range of the codec
(the source documents −30,000,000 … 30,000,000 per axis). -/
def coordInDeclaredRange (c : Int) : Prop := -30000000 ≤ c ∧ c ≤ 30000000

/-- A coordinate whose offset value fits the 5-digit width, i.e. is
representable without truncation by `slice(-5)`. -/
def coordShiftInWidth (c : Int) : Prop :=
  0 ≤ c + COORDINATE_OFFSET ∧ c + COORDINATE_OFFSET < 100000

instance (c : Int) : Decidable (coordInDeclaredRange c) := by
  unfold coordInDeclaredRange; infer_instance

instance (c : Int) : Decidable (coordShiftInWidth c) := by
  unfold coordShiftInWidth; infer_instance

/-- Scenario cell for claim C1. -/
def c1Block : Block := ⟨⟨1, 2, 3⟩, "minecraft:overworld", false⟩

/-- Record key of the C1 scenario cell. -/
def c1Key : String := blockKeyOf c1Block

/-- The C1 scenario record right after a standard-actor post-commit break
with `generationTicks = 20`. -/
def c1Record : BlockInfo :=
  ⟨⟨1, 2, 3⟩, 20, 20, "minecraft:diamond_ore", "minecraft:cobblestone",
   "minecraft:overworld", true, true⟩

/-- Store holding exactly the C1 scenario record. -/
def c1Store : Store := dpSetRaw emptyStore c1Key (serializeBlockInfo c1Record)

/-- Scenario cell for claim C3. -/
def c3Block : Block := ⟨⟨4, 5, 6⟩, "minecraft:overworld", false⟩

/-- Settings used to arm the C3 scenario cell. -/
def c3Settings : Settings :=
  ⟨20, "minecraft:diamond_ore", "minecraft:cobblestone"⟩

/-- Store after arming the C3 cell on an empty store. -/
def c3StArmed : Store := (settingBlock c3Block c3Settings emptyStore).store

/-- Store after a survival break-after event strikes the C3 cell before
its first per-tick update. -/
def c3StBroken : Store :=
  (breakAfterHandler GameMode.survival c3Block c3StArmed).store

/-- The record persisted in `c3StBroken`: broken but never initialized. -/
def c3BadRecord : BlockInfo :=
  ⟨⟨4, 5, 6⟩, 20, 20, "minecraft:diamond_ore", "minecraft:cobblestone",
   "minecraft:overworld", false, true⟩

/-- Store after the C3 cell's first per-tick update. -/
def c3StTicked : Store := (scanKey (blockKeyOf c3Block) c3StArmed).store

/-- The record persisted in `c3StTicked`. -/
def c3TickedRecord : BlockInfo :=
  ⟨⟨4, 5, 6⟩, 20, 20, "minecraft:diamond_ore", "minecraft:cobblestone",
   "minecraft:overworld", true, false⟩

/-- Store after a survival break-after event on the initialized C3 cell. -/
def c3StTickedBroken : Store :=
  (breakAfterHandler GameMode.survival c3Block c3StTicked).store

/-- The record persisted in `c3StTickedBroken`. -/
def c3BrokenRecord : BlockInfo :=
  ⟨⟨4, 5, 6⟩, 20, 20, "minecraft:diamond_ore", "minecraft:cobblestone",
   "minecraft:overworld", true, true⟩

/-- Scenario cell for claim C4. -/
def c4Block : Block := ⟨⟨7, 8, 9⟩, "minecraft:overworld", false⟩

/-- Settings used to arm the C4 scenario cell. -/
def c4Settings : Settings :=
  ⟨20, "minecraft:diamond_ore", "minecraft:cobblestone"⟩

/-- Store after arming the C4 cell on an empty store. -/
def c4StArmed : Store := (settingBlock c4Block c4Settings emptyStore).store

/-- The record persisted in `c4StArmed`. -/
def c4Record : BlockInfo := createBlockInfo c4Block c4Settings

/-- Scenario cell for claim C5. -/
def c5Block : Block := ⟨⟨10, 11, 12⟩, "minecraft:overworld", false⟩

/-- Settings offered in the conflicting C5 arming attempt. -/
def c5Settings : Settings := ⟨30, "minecraft:gold_ore", "minecraft:stone"⟩

/-- The record already stored at the C5 cell's key. -/
def c5Existing : BlockInfo :=
  ⟨⟨10, 11, 12⟩, 15, 20, "minecraft:iron_ore", "minecraft:dirt",
   "minecraft:overworld", true, false⟩

/-- Store holding the pre-existing C5 record. -/
def c5Store : Store :=
  dpSetRaw emptyStore (blockKeyOf c5Block) (serializeBlockInfo c5Existing)

/-- Record key of the C6 scenario cell. -/
def c6Key : String := getBlockKey (getLocationId 0 0 0)

/-- A structurally valid, not yet initialized record for claim C6. -/
def c6Record : BlockInfo :=
  ⟨⟨0, 0, 0⟩, 20, 20, "minecraft:diamond_ore", "minecraft:cobblestone",
   "minecraft:overworld", false, false⟩

/-- Scenario cell for claim C7. -/
def c7Block : Block := ⟨⟨13, 14, 15⟩, "minecraft:overworld", false⟩

/-- A broken record with 5 ticks left, per spec Scenario C. -/
def c7Record : BlockInfo :=
  ⟨⟨13, 14, 15⟩, 5, 20, "minecraft:diamond_ore", "minecraft:cobblestone",
   "minecraft:overworld", true, true⟩

/-- Store holding the C7 record. -/
def c7Store : Store :=
  dpSetRaw emptyStore (blockKeyOf c7Block) (serializeBlockInfo c7Record)

/-- Scenario cell for claim C8. -/
def c8Block : Block := ⟨⟨16, 17, 18⟩, "minecraft:overworld", false⟩

/-- An armed, idle (`breaked = false`) record for claim C8. -/
def c8Record : BlockInfo :=
  ⟨⟨16, 17, 18⟩, 20, 20, "minecraft:diamond_ore", "minecraft:cobblestone",
   "minecraft:overworld", true, false⟩

/-- Store holding the C8 record. -/
def c8Store : Store :=
  dpSetRaw emptyStore (blockKeyOf c8Block) (serializeBlockInfo c8Record)

/-- A structurally valid record for the C9 round-trip witness. -/
def c9Record : BlockInfo :=
  ⟨⟨19, 20, 21⟩, 7, 20, "minecraft:diamond_ore", "minecraft:cobblestone",
   "minecraft:the_end", true, true⟩

/-- Scenario cell for claim C10. -/
def c10Block : Block := ⟨⟨22, 23, 24⟩, "minecraft:overworld", false⟩

/-- Stored settings for the C10 scenario. -/
def c10Settings : Settings :=
  ⟨20, "minecraft:diamond_ore", "minecraft:cobblestone"⟩

/-- The record already stored at the C10 cell's key, so that the arming
attempt inside the interaction handler is refused. -/
def c10Existing : BlockInfo :=
  ⟨⟨22, 23, 24⟩, 20, 20, "minecraft:diamond_ore", "minecraft:cobblestone",
   "minecraft:overworld", true, false⟩

/-- Store holding both the settings singleton and the C10 record. -/
def c10Store : Store :=
  dpSetRaw (dpSetRaw emptyStore SETTING_KEY (serializeSettings c10Settings))
    (blockKeyOf c10Block) (serializeBlockInfo c10Existing)

/-- Serialization followed by deserialization is the identity on records. -/
theorem parse_serializeBlockInfo (bi : BlockInfo) :
    parseBlockInfo (serializeBlockInfo bi) = some bi := by
  cases bi with
  | mk loc t g bt mbt dim c br => cases loc; rfl

/-- A serialized settings object never reads back as a record (it has no
`location` field). -/
theorem parseBlockInfo_serializeSettings (s : Settings) :
    parseBlockInfo (serializeSettings s) = none := rfl

/-- Reading a record back through a raw write of a serialized record. -/
theorem getRecord_dpSetRaw (st : Store) (k k' : String) (bi : BlockInfo) :
    getRecord (dpSetRaw st k (serializeBlockInfo bi)) k' =
      if k' = k then some bi else getRecord st k' := by
  by_cases h : k' = k <;>
    simp [getRecord, dpSetRaw, h, parse_serializeBlockInfo]

/-- Reading a record back through a removal. -/
theorem getRecord_dpRemoveRaw (st : Store) (k k' : String) :
    getRecord (dpRemoveRaw st k) k' = if k' = k then none else getRecord st k' := by
  by_cases h : k' = k <;> simp [getRecord, dpRemoveRaw, h]

/-- Reading a record back through a write of the settings singleton. -/
theorem getRecord_dpSetRaw_settings (st : Store) (s : Settings) (k' : String) :
    getRecord (dpSetRaw st SETTING_KEY (serializeSettings s)) k' =
      if k' = SETTING_KEY then none else getRecord st k' := by
  by_cases h : k' = SETTING_KEY <;>
    simp [getRecord, dpSetRaw, h, parseBlockInfo_serializeSettings]

/-- The break-before handler never changes the store. -/
theorem breakBeforeHandler_store (b : Block) (st : Store) :
    (breakBeforeHandler b st).store = st := by
  rcases hx : getRecord st (blockKeyOf b) with _ | bi
  · simp [breakBeforeHandler, hx]
  · by_cases h : bi.breaked = true ∧ 0 < bi.time <;>
      simp [breakBeforeHandler, hx, h]

/-- A property of records holding for every record readable from a store. -/
def StoreInv (P : BlockInfo → Prop) (st : Store) : Prop :=
  ∀ k bi, getRecord st k = some bi → P bi

/-- A record property closed under every write the system performs is an
invariant of every single step. -/
theorem storeInv_step {armOK : Settings → Prop} {breakOK : BlockInfo → Prop}
    {P : BlockInfo → Prop}
    (harm : ∀ b s, armOK s → P (createBlockInfo b s))
    (hinit : ∀ bi, P bi → bi.configured = false → P { bi with configured := true })
    (hrestore : ∀ bi, P bi → bi.configured = true → bi.breaked = true →
      bi.time ≤ 0 → P { bi with breaked := false, time := bi.genTime })
    (hdec : ∀ bi, P bi → bi.configured = true → bi.breaked = true →
      ¬ bi.time ≤ 0 → P { bi with time := bi.time - 1 })
    (hbreak : ∀ bi, P bi → breakOK bi → P { bi with breaked := true, time := bi.genTime })
    {st st' : Store} (hstep : Step armOK breakOK st st') (hinv : StoreInv P st) :
    StoreInv P st' := by
  cases hstep with
  | configure s st =>
    intro k bi hget
    rw [getRecord_dpSetRaw_settings] at hget
    by_cases h : k = SETTING_KEY
    · simp [h] at hget
    · rw [if_neg h] at hget; exact hinv k bi hget
  | arm b s st hs =>
    intro k bi hget
    rcases hx : getRecord st (blockKeyOf b) with _ | bi0
    · simp only [settingBlock, hx] at hget
      rw [getRecord_dpSetRaw] at hget
      by_cases h : k = blockKeyOf b
      · rw [if_pos h] at hget
        cases hget
        exact harm b s hs
      · rw [if_neg h] at hget; exact hinv k bi hget
    · simp only [settingBlock, hx] at hget
      exact hinv k bi hget
  | tick k0 st hk0 =>
    intro k bi hget
    rcases hx : st k0 with _ | j
    · simp only [scanKey, hx] at hget; exact hinv k bi hget
    · rcases hp : parseBlockInfo j with _ | bi0
      · simp only [scanKey, hx, hp] at hget
        rw [getRecord_dpRemoveRaw] at hget
        by_cases h : k = k0
        · simp [h] at hget
        · rw [if_neg h] at hget; exact hinv k bi hget
      · have hbi0 : getRecord st k0 = some bi0 := by
          simp [getRecord, hx, hp]
        have hP0 : P bi0 := hinv k0 bi0 hbi0
        by_cases hval : isValidBlockInfo bi0
        · simp only [scanKey, hx, hp, hval, if_pos] at hget
          by_cases hc : bi0.configured = false
          · simp only [handleBlockUpdate, hc, if_pos] at hget
            rw [getRecord_dpSetRaw] at hget
            by_cases h : k = k0
            · rw [if_pos h] at hget
              cases hget
              exact hinit bi0 hP0 hc
            · rw [if_neg h] at hget; exact hinv k bi hget
          · have hc' : bi0.configured = true := by
              revert hc; cases bi0.configured <;> simp
            by_cases hb : bi0.breaked = true
            · by_cases ht : bi0.time ≤ 0
              · simp only [handleBlockUpdate, hc', hb, ht] at hget
                simp only [reduceCtorEq, if_false, if_true, ite_true, ite_false,
                  if_pos ht] at hget
                rw [getRecord_dpSetRaw] at hget
                by_cases h : k = k0
                · rw [if_pos h] at hget
                  cases hget
                  have hres := hrestore bi0 hP0 hc' hb ht
                  rw [hc'] at hres
                  exact hres
                · rw [if_neg h] at hget; exact hinv k bi hget
              · simp only [handleBlockUpdate, hc', hb] at hget
                simp only [reduceCtorEq, if_false, if_true, ite_true, ite_false,
                  if_neg ht] at hget
                rw [getRecord_dpSetRaw] at hget
                by_cases h : k = k0
                · rw [if_pos h] at hget
                  cases hget
                  have hres := hdec bi0 hP0 hc' hb ht
                  rw [hc', hb] at hres
                  exact hres
                · rw [if_neg h] at hget; exact hinv k bi hget
            · have hb' : bi0.breaked = false := by
                revert hb; cases bi0.breaked <;> simp
              simp only [handleBlockUpdate, hc', hb', reduceCtorEq, if_false,
                ite_false] at hget
              exact hinv k bi hget
        · have hval' : isValidBlockInfo bi0 = false := by
            revert hval; cases isValidBlockInfo bi0 <;> simp
          simp only [scanKey, hx, hp, hval', Bool.false_eq_true, if_false,
            ite_false] at hget
          rw [getRecord_dpRemoveRaw] at hget
          by_cases h : k = k0
          · simp [h] at hget
          · rw [if_neg h] at hget; exact hinv k bi hget
  | breakBefore b st =>
    intro k bi hget
    rw [breakBeforeHandler_store] at hget
    exact hinv k bi hget
  | breakAfter mode b st hok =>
    intro k bi hget
    rcases hx : getRecord st (blockKeyOf b) with _ | bi0
    · simp only [breakAfterHandler, hx] at hget
      exact hinv k bi hget
    · have hP0 : P bi0 := hinv (blockKeyOf b) bi0 hx
      by_cases hm : mode = GameMode.creative
      · simp only [breakAfterHandler, hx, hm, if_pos, if_true] at hget
        rw [getRecord_dpRemoveRaw] at hget
        by_cases h : k = blockKeyOf b
        · simp [h] at hget
        · rw [if_neg h] at hget; exact hinv k bi hget
      · simp only [breakAfterHandler, hx, hm, if_neg, if_false] at hget
        rw [getRecord_dpSetRaw] at hget
        by_cases h : k = blockKeyOf b
        · rw [if_pos h] at hget
          cases hget
          exact hbreak bi0 hP0 (hok bi0 hx hm)
        · rw [if_neg h] at hget; exact hinv k bi hget

/-- A record property closed under every write the system performs holds
in every reachable state. -/
theorem storeInv_reachable {armOK : Settings → Prop} {breakOK : BlockInfo → Prop}
    {P : BlockInfo → Prop}
    (harm : ∀ b s, armOK s → P (createBlockInfo b s))
    (hinit : ∀ bi, P bi → bi.configured = false → P { bi with configured := true })
    (hrestore : ∀ bi, P bi → bi.configured = true → bi.breaked = true →
      bi.time ≤ 0 → P { bi with breaked := false, time := bi.genTime })
    (hdec : ∀ bi, P bi → bi.configured = true → bi.breaked = true →
      ¬ bi.time ≤ 0 → P { bi with time := bi.time - 1 })
    (hbreak : ∀ bi, P bi → breakOK bi → P { bi with breaked := true, time := bi.genTime })
    {st : Store} (h : Reachable armOK breakOK st) : StoreInv P st := by
  induction h with
  | refl => intro k bi hget; simp [getRecord, emptyStore] at hget
  | tail _ hstep ih =>
    exact storeInv_step harm hinit hrestore hdec hbreak hstep ih

/-- C5: arming a cell whose key already holds a record reports a conflict
and performs no write: the store (and hence the pre-existing record and
all its fields) is left exactly as it was, and `settingBlock` returns
false after sending the conflict message. -/
theorem c5_arm_conflict_no_write (b : Block) (s : Settings) (st : Store)
    (bi : BlockInfo) (h : getRecord st (blockKeyOf b) = some bi) :
    settingBlock b s st = ⟨st, false, [alreadyConfiguredMsg]⟩ := by
  simp [settingBlock, h]

/-- Witness for C5 at a concrete conflicting store. -/
theorem c5_arm_conflict_no_write_witness :
    settingBlock c5Block c5Settings c5Store =
      ⟨c5Store, false, [alreadyConfiguredMsg]⟩ :=
  c5_arm_conflict_no_write c5Block c5Settings c5Store c5Existing (by decide)

/-- C7: the break pre-check allows the removal when no record exists,
vetoes it (cancel true, actor notified, store untouched) when the record
is broken with a positive countdown, and allows it in every other case. -/
theorem c7_break_precheck (b : Block) (st : Store) :
    (getRecord st (blockKeyOf b) = none →
      breakBeforeHandler b st = ⟨st, false, []⟩) ∧
    (∀ bi, getRecord st (blockKeyOf b) = some bi → bi.breaked = true →
      0 < bi.time → breakBeforeHandler b st = ⟨st, true, [cannotBreakMsg]⟩) ∧
    (∀ bi, getRecord st (blockKeyOf b) = some bi →
      ¬(bi.breaked = true ∧ 0 < bi.time) →
      breakBeforeHandler b st = ⟨st, false, []⟩) := by
  refine ⟨fun h => by simp [breakBeforeHandler, h],
    fun bi h hb ht => by simp [breakBeforeHandler, h, hb, ht],
    fun bi h hn => by simp [breakBeforeHandler, h, hn]⟩

/-- Witness for C7: the veto case of spec Scenario C (`broken = true`,
`remainingTicks = 5`). -/
theorem c7_break_precheck_witness :
    breakBeforeHandler c7Block c7Store = ⟨c7Store, true, [cannotBreakMsg]⟩ :=
  (c7_break_precheck c7Block c7Store).2.1 c7Record (by decide) rfl (by decide)

/-- C8: a creative-mode (elevated) break-after on a cell with a record
deletes the record entirely, notifies the actor, places no block, and
leaves no record behind — in particular for an armed idle record. -/
theorem c8_creative_break_deletes (b : Block) (st : Store) (bi : BlockInfo)
    (h : getRecord st (blockKeyOf b) = some bi) :
    breakAfterHandler GameMode.creative b st =
      ⟨dpRemoveRaw st (blockKeyOf b), [], [removedSettingMsg]⟩ ∧
    getRecord (breakAfterHandler GameMode.creative b st).store (blockKeyOf b) =
      none := by
  constructor
  · simp [breakAfterHandler, h]
  · simp [breakAfterHandler, h, getRecord_dpRemoveRaw]

/-- Witness for C8 at a concrete armed idle record. -/
theorem c8_creative_break_deletes_witness :
    breakAfterHandler GameMode.creative c8Block c8Store =
      ⟨dpRemoveRaw c8Store (blockKeyOf c8Block), [], [removedSettingMsg]⟩ ∧
    getRecord (breakAfterHandler GameMode.creative c8Block c8Store).store
      (blockKeyOf c8Block) = none :=
  c8_creative_break_deletes c8Block c8Store c8Record (by decide)

/-- C9: `store.set(k, v)` followed by `store.get(k)` yields `v` for every
structurally valid record (serialization then deserialization is the
identity). -/
theorem c9_store_roundtrip (st : Store) (k : String) (v : BlockInfo)
    (_hv : isValidBlockInfo v = true) :
    getRecord (dpSetRaw st k (serializeBlockInfo v)) k = some v := by
  rw [getRecord_dpSetRaw]
  simp

/-- Witness for C9 at a concrete valid record. -/
theorem c9_store_roundtrip_witness :
    getRecord (dpSetRaw emptyStore "block:000190000200021"
      (serializeBlockInfo c9Record)) "block:000190000200021" = some c9Record :=
  c9_store_roundtrip emptyStore "block:000190000200021" c9Record (by decide)

/-- C10: whenever the interaction handler reaches the arming step (first
event, trigger item held, target not air, not sneaking, settings
present), the player receives exactly the arming-success message — the
boolean result of `settingBlock` is discarded, so this holds even when a
record already exists at the cell's key. -/
theorem c10_arm_message_unconditional (b : Block) (st : Store) (s : Settings)
    (hair : b.isAir = false) (hset : getSettings st = some s) :
    (interactBeforeHandler true TRIGGER_ITEM false b st).playerMsgs =
      [blockConfiguredMsg] := by
  simp [interactBeforeHandler, hair, hset]

/-- Witness for C10 at a store whose cell already has a record: the
arming attempt is refused, yet the success message is still sent. -/
theorem c10_arm_message_unconditional_witness :
    (interactBeforeHandler true TRIGGER_ITEM false c10Block c10Store).playerMsgs =
      [blockConfiguredMsg] ∧
    (settingBlock c10Block c10Settings c10Store).ok = false :=
  ⟨c10_arm_message_unconditional c10Block c10Store c10Settings rfl (by decide),
   by decide⟩

/-- C6: the per-tick update on a structurally valid record with
`configured = false` issues exactly one place-original-block mutation,
persists the record with `configured = true`, and does nothing else that
tick; and once a record at a key is `configured = true`, the per-tick
update keeps it so, hence the first-time placement branch is never taken
again on subsequent ticks. -/
theorem c6_first_tick_idempotent (k : String) (bi : BlockInfo) (st : Store)
    (_hval : isValidBlockInfo bi = true) (h : bi.configured = false) :
    handleBlockUpdate k bi st =
      ⟨dpSetRaw st k (serializeBlockInfo { bi with configured := true }),
       [⟨bi.dimensionId, bi.location, bi.blockType⟩]⟩ ∧
    getRecord (handleBlockUpdate k bi st).store k =
      some { bi with configured := true } ∧
    (∀ (k' : String) (st' : Store) (bj bj' : BlockInfo),
      getRecord st' k' = some bj → bj.configured = true →
      getRecord (handleBlockUpdate k' bj st').store k' = some bj' →
      bj'.configured = true) := by
  refine ⟨by simp [handleBlockUpdate, h], ?_, ?_⟩
  · simp [handleBlockUpdate, h, getRecord_dpSetRaw]
  · intro k' st' bj bj' hbj hcj hbj'
    by_cases hb : bj.breaked = true
    · by_cases ht : bj.time ≤ 0
      · simp only [handleBlockUpdate, hcj, hb] at hbj'
        simp only [reduceCtorEq, if_false, ite_false, ite_true,
          if_pos ht] at hbj'
        rw [getRecord_dpSetRaw, if_pos rfl] at hbj'
        cases hbj'
        rfl
      · simp only [handleBlockUpdate, hcj, hb] at hbj'
        simp only [reduceCtorEq, if_false, ite_false, ite_true,
          if_neg ht] at hbj'
        rw [getRecord_dpSetRaw, if_pos rfl] at hbj'
        cases hbj'
        rfl
    · have hb' : bj.breaked = false := by
        revert hb; cases bj.breaked <;> simp
      simp only [handleBlockUpdate, hcj, hb', reduceCtorEq, if_false,
        ite_false] at hbj'
      rw [hbj] at hbj'
      cases hbj'
      exact hcj

/-- Witness for C6 at a concrete valid unconfigured record. -/
theorem c6_first_tick_idempotent_witness :
    getRecord (handleBlockUpdate c6Key c6Record emptyStore).store c6Key =
      some { c6Record with configured := true } :=
  (c6_first_tick_idempotent c6Key c6Record emptyStore (by decide) rfl).2.1

/-- C3 counterexample: a record armed and then struck by a survival
break-after event before its first per-tick update is reachable by the
unconstrained system and has `breaked = true` with `configured = false`,
violating the claimed invariant. -/
theorem c3_counterexample :
    Reachable (fun _ => True) (fun _ => True) c3StBroken ∧
    getRecord c3StBroken (blockKeyOf c3Block) = some c3BadRecord ∧
    c3BadRecord.breaked = true ∧ c3BadRecord.configured = false := by
  refine ⟨?_, by decide, rfl, rfl⟩
  have h1 : Step (fun _ => True) (fun _ => True) emptyStore c3StArmed :=
    Step.arm c3Block c3Settings emptyStore trivial
  have h2 : Step (fun _ => True) (fun _ => True) c3StArmed c3StBroken :=
    Step.breakAfter GameMode.survival c3Block c3StArmed (fun _ _ _ => trivial)
  exact Relation.ReflTransGen.tail (Relation.ReflTransGen.single h1) h2

/-- C3 amended: `broken = true` implies `initialized = true` in every
reachable state, provided every non-creative break-after event strikes a
record that has already been initialized (`configured = true`) — the
unconstrained system violates the invariant only through a break landing
between arming and the first per-tick update. -/
theorem c3_broken_implies_initialized_amended (st : Store)
    (h : Reachable (fun _ => True) (fun bi => bi.configured = true) st)
    (k : String) (bi : BlockInfo) (hget : getRecord st k = some bi)
    (hb : bi.breaked = true) : bi.configured = true := by
  have hinv := storeInv_reachable
    (P := fun bi => bi.breaked = true → bi.configured = true)
    (fun b s _ => by simp [createBlockInfo])
    (fun bi _ _ _ => rfl)
    (fun bi _ _ _ _ => by simp)
    (fun bi _ hc _ _ _ => hc)
    (fun bi _ hok _ => hok)
    h
  exact hinv k bi hget hb

/-- Witness for C3 amended: a full arm → tick → break chain whose final
record is broken, concluded initialized by the theorem. -/
theorem c3_broken_implies_initialized_amended_witness :
    c3BrokenRecord.configured = true := by
  have harm : Step (fun _ => True) (fun bi => bi.configured = true)
      emptyStore c3StArmed :=
    Step.arm c3Block c3Settings emptyStore trivial
  have htick : Step (fun _ => True) (fun bi => bi.configured = true)
      c3StArmed c3StTicked :=
    Step.tick (blockKeyOf c3Block) c3StArmed (by decide)
  have hbrk : Step (fun _ => True) (fun bi => bi.configured = true)
      c3StTicked c3StTickedBroken := by
    refine Step.breakAfter GameMode.survival c3Block c3StTicked ?_
    intro bi hbi _
    have hrec : getRecord c3StTicked (blockKeyOf c3Block) =
        some c3TickedRecord := by decide
    rw [hrec] at hbi
    cases hbi
    rfl
  have hreach : Reachable (fun _ => True) (fun bi => bi.configured = true)
      c3StTickedBroken :=
    Relation.ReflTransGen.tail
      (Relation.ReflTransGen.tail (Relation.ReflTransGen.single harm) htick) hbrk
  exact c3_broken_implies_initialized_amended c3StTickedBroken hreach
    (blockKeyOf c3Block) c3BrokenRecord (by decide) rfl

/-- C4: in every state reachable with arming settings satisfying the
GlobalConfig contract (`generationTicks > 0`), every persisted record has
non-negative `remainingTicks` (and non-negative `generationTicks`):
creation and each break reset it to the positive `generationTicks`, a
tick decrements only positive values, and every other step leaves it
unchanged. -/
theorem c4_remaining_ticks_nonneg (st : Store)
    (h : Reachable (fun s => 0 < s.genTime) (fun _ => True) st)
    (k : String) (bi : BlockInfo) (hget : getRecord st k = some bi) :
    0 ≤ bi.time ∧ 0 ≤ bi.genTime := by
  have hinv := storeInv_reachable
    (P := fun bi => 0 ≤ bi.time ∧ 0 ≤ bi.genTime)
    (fun b s hs => ⟨le_of_lt hs, le_of_lt hs⟩)
    (fun bi hP _ => hP)
    (fun bi hP _ _ _ => ⟨hP.2, hP.2⟩)
    (fun bi hP _ _ ht => ⟨by show 0 ≤ bi.time - 1; omega, hP.2⟩)
    (fun bi hP _ => ⟨hP.2, hP.2⟩)
    h
  exact hinv k bi hget

/-- Witness for C4: the record of a freshly armed cell has non-negative
ticks. -/
theorem c4_remaining_ticks_nonneg_witness :
    0 ≤ c4Record.time ∧ 0 ≤ c4Record.genTime := by
  have harm : Step (fun s => 0 < s.genTime) (fun _ => True)
      emptyStore c4StArmed :=
    Step.arm c4Block c4Settings emptyStore (by decide)
  exact c4_remaining_ticks_nonneg c4StArmed
    (Relation.ReflTransGen.single harm) (blockKeyOf c4Block) c4Record (by decide)

/-- One scan tick on a valid, configured, broken record with a positive
countdown only decrements and persists. -/
theorem scanKey_decrement (k : String) (bi : BlockInfo) (st : Store)
    (hk : st k = some (serializeBlockInfo bi)) (hval : isValidBlockInfo bi = true)
    (hc : bi.configured = true) (hb : bi.breaked = true) (ht : ¬ bi.time ≤ 0) :
    scanKey k st =
      ⟨dpSetRaw st k (serializeBlockInfo { bi with time := bi.time - 1 }), []⟩ := by
  simp only [scanKey, hk, parse_serializeBlockInfo, hval, if_pos,
    handleBlockUpdate, hc, hb]
  simp only [reduceCtorEq, if_false, ite_false, ite_true, if_neg ht]

/-- One scan tick on a valid, configured, broken record with an expired
countdown places the original block, clears `breaked`, and resets the
countdown. -/
theorem scanKey_restore (k : String) (bi : BlockInfo) (st : Store)
    (hk : st k = some (serializeBlockInfo bi)) (hval : isValidBlockInfo bi = true)
    (hc : bi.configured = true) (hb : bi.breaked = true) (ht : bi.time ≤ 0) :
    scanKey k st =
      ⟨dpSetRaw st k
         (serializeBlockInfo { bi with breaked := false, time := bi.genTime }),
       [⟨bi.dimensionId, bi.location, bi.blockType⟩]⟩ := by
  simp only [scanKey, hk, parse_serializeBlockInfo, hval, if_pos,
    handleBlockUpdate, hc, hb]
  simp only [reduceCtorEq, if_false, ite_false, ite_true, if_pos ht]

/-- Running `n` consecutive scan ticks on a broken record whose countdown
is at least `n` just subtracts `n` from the countdown and issues no block
mutation. -/
theorem iterateScan_countdown (k : String) :
    ∀ (n : Nat) (bi : BlockInfo) (st : Store),
    st k = some (serializeBlockInfo bi) → isValidBlockInfo bi = true →
    bi.configured = true → bi.breaked = true → (n : Int) ≤ bi.time →
    (iterateScan k n st).store k =
      some (serializeBlockInfo { bi with time := bi.time - (n : Int) }) ∧
    (iterateScan k n st).mutations = [] := by
  intro n
  induction n with
  | zero =>
    intro bi st hk hval hc hb hn
    refine ⟨?_, rfl⟩
    show st k = _
    rw [hk]
    norm_num
  | succ n ih =>
    intro bi st hk hval hc hb hn
    have ht : ¬ bi.time ≤ 0 := by
      push_cast at hn
      omega
    have hstep := scanKey_decrement k bi st hk hval hc hb ht
    have h1 : (scanKey k st).store k =
        some (serializeBlockInfo { bi with time := bi.time - 1 }) := by
      rw [hstep]
      simp [dpSetRaw]
    have hn' : (n : Int) ≤ ({ bi with time := bi.time - 1 } : BlockInfo).time := by
      show (n : Int) ≤ bi.time - 1
      push_cast at hn
      omega
    have ih' := ih { bi with time := bi.time - 1 } (scanKey k st).store h1
      hval hc hb hn'
    have heq : ({ { bi with time := bi.time - 1 } with
        time := ({ bi with time := bi.time - 1 } : BlockInfo).time - (n : Int) } :
          BlockInfo) =
        { bi with time := bi.time - ((n + 1 : Nat) : Int) } := by
      show ({ bi with time := bi.time - 1 - (n : Int) } : BlockInfo) = _
      have harith : bi.time - 1 - (n : Int) = bi.time - ((n + 1 : Nat) : Int) := by
        push_cast
        omega
      rw [harith]
    rw [heq] at ih'
    constructor
    · show (iterateScan k n (scanKey k st).store).store k = _
      exact ih'.1
    · show (scanKey k st).mutations ++
        (iterateScan k n (scanKey k st).store).mutations = []
      rw [ih'.2, hstep]
      rfl

/-- Splitting a run of scan ticks: `m + n` ticks are `m` ticks followed
by `n` ticks, with mutation lists concatenated. -/
theorem iterateScan_add (k : String) (m n : Nat) :
    ∀ st : Store,
    iterateScan k (m + n) st =
      ⟨(iterateScan k n (iterateScan k m st).store).store,
       (iterateScan k m st).mutations ++
         (iterateScan k n (iterateScan k m st).store).mutations⟩ := by
  induction m with
  | zero =>
    intro st
    rw [Nat.zero_add]
    rfl
  | succ m ih =>
    intro st
    have hcomm : m + 1 + n = (m + n) + 1 := by omega
    rw [hcomm]
    show (⟨(iterateScan k (m + n) (scanKey k st).store).store,
      (scanKey k st).mutations ++
        (iterateScan k (m + n) (scanKey k st).store).mutations⟩ : UpdateResult) = _
    rw [ih (scanKey k st).store]
    show (⟨_, (scanKey k st).mutations ++
        ((iterateScan k m (scanKey k st).store).mutations ++ _)⟩ : UpdateResult) = _
    rw [← List.append_assoc]
    rfl

/-- C1 counterexample: ticking the C1 scenario record (broken,
`remainingTicks = 20`) exactly 20 times leaves it at `remainingTicks = 0`
with `broken` still true and no block placed — the restoration claimed
for the 20th tick does not happen until the 21st. -/
theorem c1_counterexample :
    getRecord (iterateScan c1Key 20 c1Store).store c1Key =
      some { c1Record with time := 0 } ∧
    ({ c1Record with time := 0 } : BlockInfo).breaked = true ∧
    (iterateScan c1Key 20 c1Store).mutations = [] := by
  exact ⟨by decide, rfl, by decide⟩

/-- Reading back one restore tick: on a valid, configured, broken record
with an expired countdown, the scan persists the restored record and
issues exactly the place-original-block mutation. -/
theorem scanKey_restore_record (k : String) (bi0 : BlockInfo) (st0 : Store)
    (hk : st0 k = some (serializeBlockInfo bi0))
    (hval : isValidBlockInfo bi0 = true) (hc : bi0.configured = true)
    (hb : bi0.breaked = true) (ht : bi0.time ≤ 0) :
    getRecord (scanKey k st0).store k =
      some { bi0 with breaked := false, time := bi0.genTime } ∧
    (scanKey k st0).mutations =
      [⟨bi0.dimensionId, bi0.location, bi0.blockType⟩] := by
  rw [scanKey_restore k bi0 st0 hk hval hc hb ht]
  constructor
  · show getRecord (dpSetRaw st0 k
      (serializeBlockInfo { bi0 with breaked := false, time := bi0.genTime })) k = _
    rw [getRecord_dpSetRaw, if_pos rfl]
  · rfl

/-- C1 amended: for a broken record with `remainingTicks = generationTicks
= g`, the first `g` ticks only decrement — the countdown reaches 0 on the
`g`-th decrement with `broken` still true and no block placed — and the
`(g+1)`-th tick's processing then restores `broken = false`, places the
original block, and resets `remainingTicks = g`. -/
theorem c1_regen_cycle_amended (k : String) (bi : BlockInfo) (st : Store)
    (g : Nat) (hk : st k = some (serializeBlockInfo bi))
    (hval : isValidBlockInfo bi = true) (hc : bi.configured = true)
    (hb : bi.breaked = true) (htime : bi.time = (g : Int))
    (hgen : bi.genTime = (g : Int)) :
    (getRecord (iterateScan k g st).store k = some { bi with time := 0 } ∧
     (iterateScan k g st).mutations = []) ∧
    getRecord (iterateScan k (g + 1) st).store k =
      some { bi with breaked := false, time := (g : Int) } ∧
    (iterateScan k (g + 1) st).mutations =
      [⟨bi.dimensionId, bi.location, bi.blockType⟩] := by
  have hcd := iterateScan_countdown k g bi st hk hval hc hb (le_of_eq htime.symm)
  have hbi0 : ({ bi with time := bi.time - (g : Int) } : BlockInfo) =
      { bi with time := 0 } := by
    rw [htime]
    norm_num
  rw [hbi0] at hcd
  have hk0 : (iterateScan k g st).store k =
      some (serializeBlockInfo { bi with time := 0 }) := hcd.1
  have h2 := scanKey_restore_record k { bi with time := 0 }
    (iterateScan k g st).store hk0 hval hc hb (le_refl 0)
  refine ⟨⟨?_, hcd.2⟩, ?_, ?_⟩
  · simp only [getRecord, hk0]
    simp [parse_serializeBlockInfo]
  · rw [iterateScan_add k g 1 st]
    show getRecord (scanKey k (iterateScan k g st).store).store k = _
    rw [h2.1]
    show some ({ bi with breaked := false, time := bi.genTime } : BlockInfo) = _
    rw [hgen]
  · rw [iterateScan_add k g 1 st]
    show (iterateScan k g st).mutations ++
      ((scanKey k (iterateScan k g st).store).mutations ++ []) = _
    rw [hcd.2, h2.2]
    rfl

/-- Witness for C1 amended at the concrete 20-tick scenario record. -/
theorem c1_regen_cycle_amended_witness :
    getRecord (iterateScan c1Key 21 c1Store).store c1Key =
      some { c1Record with breaked := false, time := 20 } ∧
    (iterateScan c1Key 21 c1Store).mutations =
      [⟨"minecraft:overworld", ⟨1, 2, 3⟩, "minecraft:diamond_ore"⟩] := by
  have h := c1_regen_cycle_amended c1Key c1Record c1Store 20 rfl (by decide)
    rfl rfl (by decide) (by decide)
  exact ⟨h.2.1, h.2.2⟩

/-- Character value of `Nat.digitChar` on a decimal digit. -/
theorem digitChar_toNat (d : Nat) (h : d < 10) :
    (Nat.digitChar d).toNat = 48 + d := by
  interval_cases d <;> rfl

/-- A leading zero character does not change the value of a digit string. -/
theorem strNatVal_cons_zero (l : List Char) :
    strNatVal ('0' :: l) = strNatVal l := by
  have h : (fun a c => a * 10 + digitVal c) 0 '0' = 0 := by decide
  show List.foldl (fun a c => a * 10 + digitVal c)
    ((fun a c => a * 10 + digitVal c) 0 '0') l = strNatVal l
  rw [h]
  rfl

/-- Leading zero padding does not change the value of a digit string. -/
theorem strNatVal_replicate_zero (m : Nat) (l : List Char) :
    strNatVal (List.replicate m '0' ++ l) = strNatVal l := by
  induction m with
  | zero => rfl
  | succ m ih => rw [List.replicate_succ, List.cons_append, strNatVal_cons_zero, ih]

/-- Appending one digit multiplies the value by ten and adds the digit. -/
theorem strNatVal_append_digit (l : List Char) (c : Char) :
    strNatVal (l ++ [c]) = strNatVal l * 10 + digitVal c := by
  show List.foldl _ 0 (l ++ [c]) = _
  rw [List.foldl_append]
  rfl

/-- The decimal digit list of `n` evaluates back to `n`. -/
theorem strNatVal_natDecAux : ∀ (f n : Nat), n < f →
    strNatVal (natDecAux f n) = n := by
  intro f
  induction f with
  | zero => intro n h; exact absurd h (Nat.not_lt_zero n)
  | succ f ih =>
    intro n h
    by_cases h10 : n < 10
    · show strNatVal (if n < 10 then [Nat.digitChar n]
        else natDecAux f (n / 10) ++ [Nat.digitChar (n % 10)]) = n
      rw [if_pos h10]
      show 0 * 10 + digitVal (Nat.digitChar n) = n
      unfold digitVal
      rw [digitChar_toNat n h10]
      omega
    · show strNatVal (if n < 10 then [Nat.digitChar n]
        else natDecAux f (n / 10) ++ [Nat.digitChar (n % 10)]) = n
      rw [if_neg h10, strNatVal_append_digit]
      have hd : n / 10 < f := by
        have h1 : n / 10 < n := Nat.div_lt_self (by omega) (by omega)
        omega
      rw [ih (n / 10) hd]
      have hm : digitVal (Nat.digitChar (n % 10)) = n % 10 := by
        unfold digitVal
        rw [digitChar_toNat (n % 10) (Nat.mod_lt n (by omega))]
        omega
      rw [hm]
      omega

/-- A number below `10 ^ k` has at most `k` decimal digits. -/
theorem natDecAux_length : ∀ (f n k : Nat), n < f → n < 10 ^ k → 0 < k →
    (natDecAux f n).length ≤ k := by
  intro f
  induction f with
  | zero => intro n k h _ _; exact absurd h (Nat.not_lt_zero n)
  | succ f ih =>
    intro n k h hk hk0
    by_cases h10 : n < 10
    · show (if n < 10 then [Nat.digitChar n]
        else natDecAux f (n / 10) ++ [Nat.digitChar (n % 10)]).length ≤ k
      rw [if_pos h10]
      simpa using hk0
    · show (if n < 10 then [Nat.digitChar n]
        else natDecAux f (n / 10) ++ [Nat.digitChar (n % 10)]).length ≤ k
      rw [if_neg h10, List.length_append]
      have h2 : 2 ≤ k := by
        by_contra hcon
        have hk1 : k = 1 := by omega
        subst hk1
        rw [pow_one] at hk
        omega
      have hd : n / 10 < f := by
        have h1 : n / 10 < n := Nat.div_lt_self (by omega) (by omega)
        omega
      have hdk : n / 10 < 10 ^ (k - 1) := by
        rw [Nat.div_lt_iff_lt_mul (by omega : (0:Nat) < 10)]
        have hpow : 10 ^ (k - 1) * 10 = 10 ^ k := by
          rw [← pow_succ]
          congr 1
          omega
        rw [hpow]
        exact hk
      have hih := ih (n / 10) (k - 1) hd hdk (by omega)
      simp only [List.length_singleton]
      omega

/-- For a coordinate whose offset value fits the digit width, the encoded
component is exactly 5 characters long and evaluates back to the offset
value. -/
theorem encodeCoord_spec (c : Int) (hw : coordShiftInWidth c) :
    (encodeCoord c).data.length = 5 ∧
    strNatVal (encodeCoord c).data = (c + COORDINATE_OFFSET).toNat := by
  obtain ⟨h0, h1⟩ := hw
  have hn5 : (c + COORDINATE_OFFSET).toNat < 100000 := by omega
  have hL : (natDecAux ((c + COORDINATE_OFFSET).toNat + 1)
      (c + COORDINATE_OFFSET).toNat).length ≤ 5 := by
    have hp : (100000 : Nat) = 10 ^ 5 := by norm_num
    exact natDecAux_length _ _ 5 (Nat.lt_succ_self _) (hp ▸ hn5) (by omega)
  have hjs : jsIntToString (c + COORDINATE_OFFSET) =
      jsNatToString (c + COORDINATE_OFFSET).toNat := by
    unfold jsIntToString
    rw [if_neg (by omega)]
  have hdata : (encodeCoord c).data =
      List.replicate (5 - (natDecAux ((c + COORDINATE_OFFSET).toNat + 1)
          (c + COORDINATE_OFFSET).toNat).length) '0' ++
        natDecAux ((c + COORDINATE_OFFSET).toNat + 1)
          (c + COORDINATE_OFFSET).toNat := by
    unfold encodeCoord
    rw [hjs]
    unfold jsNatToString padStart sliceLast COORDINATE_DIGITS
    simp only [String.data_append]
    have hlen : (List.replicate
        (5 - (String.mk (natDecAux ((c + COORDINATE_OFFSET).toNat + 1)
          (c + COORDINATE_OFFSET).toNat)).length) '0' ++
        natDecAux ((c + COORDINATE_OFFSET).toNat + 1)
          (c + COORDINATE_OFFSET).toNat).length = 5 := by
      rw [List.length_append, List.length_replicate]
      show 5 - (natDecAux _ _).length + (natDecAux _ _).length = 5
      omega
    rw [hlen]
    simp
  constructor
  · rw [hdata, List.length_append, List.length_replicate]
    omega
  · rw [hdata, strNatVal_replicate_zero,
      strNatVal_natDecAux _ _ (Nat.lt_succ_self _)]

/-- Encoded components of two width-representable coordinates agree only
when the coordinates agree. -/
theorem encodeCoord_inj (c c' : Int) (h : coordShiftInWidth c)
    (h' : coordShiftInWidth c')
    (heq : (encodeCoord c).data = (encodeCoord c').data) : c = c' := by
  have s1 := encodeCoord_spec c h
  have s2 := encodeCoord_spec c' h'
  have hv : (c + COORDINATE_OFFSET).toNat = (c' + COORDINATE_OFFSET).toNat := by
    rw [← s1.2, ← s2.2, heq]
  obtain ⟨hc0, _⟩ := h
  obtain ⟨hc0', _⟩ := h'
  unfold COORDINATE_OFFSET at hc0 hc0' hv
  omega

/-- Padding to width 5 and then slicing the last 5 characters always
yields exactly 5 characters, whatever the input string. -/
theorem sliceLast_padStart_length (s : String) :
    (sliceLast (padStart s 5 '0') 5).data.length = 5 := by
  show ((String.mk (List.replicate (5 - s.length) '0') ++ s).data.drop
    ((String.mk (List.replicate (5 - s.length) '0') ++ s).data.length - 5)).length = 5
  rw [String.data_append, List.length_drop, List.length_append,
    List.length_replicate]
  have hsd : s.length = s.data.length := rfl
  omega

/-- Every encoded coordinate component has exactly 5 characters, for every
integer coordinate — also outside the representable range, where
truncation discards high digits. -/
theorem encodeCoord_length (c : Int) : (encodeCoord c).data.length = 5 :=
  sliceLast_padStart_length (jsIntToString (c + COORDINATE_OFFSET))

/-- C2 counterexample: two distinct coordinates inside the declared
±30,000,000 range whose location ids coincide — `slice(-5)` keeps only
the offset value modulo 100000, so the encoding is not injective on the
declared range. -/
theorem c2_counterexample :
    coordInDeclaredRange 0 ∧ coordInDeclaredRange 100000 ∧ (0 : Int) ≠ 100000 ∧
    getLocationId 0 0 0 = getLocationId 100000 0 0 :=
  ⟨by decide, by decide, by decide, by decide⟩

/-- C2 amended: `getLocationId` is a function (hence deterministic), its
result is a fixed-width 15-character string for every integer coordinate
triple, and it is injective on coordinates whose offset value fits the
5-digit width — the range on which the spec itself guarantees freedom
from collisions. -/
theorem c2_encode_injective_amended :
    (∀ x y z : Int, (getLocationId x y z).length = 15) ∧
    (∀ x y z x' y' z' : Int, coordShiftInWidth x → coordShiftInWidth y →
      coordShiftInWidth z → coordShiftInWidth x' → coordShiftInWidth y' →
      coordShiftInWidth z' → getLocationId x y z = getLocationId x' y' z' →
      x = x' ∧ y = y' ∧ z = z') := by
  constructor
  · intro x y z
    show (getLocationId x y z).data.length = 15
    unfold getLocationId
    rw [String.data_append, String.data_append, List.length_append,
      List.length_append, encodeCoord_length, encodeCoord_length,
      encodeCoord_length]
  · intro x y z x' y' z' hx hy hz hx' hy' hz' heq
    have hdata : ((encodeCoord x).data ++ (encodeCoord y).data) ++
        (encodeCoord z).data =
        ((encodeCoord x').data ++ (encodeCoord y').data) ++
        (encodeCoord z').data := by
      have hcongr := congrArg String.data heq
      simpa [getLocationId, String.data_append] using hcongr
    have hlen12 : ((encodeCoord x).data ++ (encodeCoord y).data).length =
        ((encodeCoord x').data ++ (encodeCoord y').data).length := by
      rw [List.length_append, List.length_append, (encodeCoord_spec x hx).1,
        (encodeCoord_spec y hy).1, (encodeCoord_spec x' hx').1,
        (encodeCoord_spec y' hy').1]
    have h12 := List.append_inj hdata hlen12
    have hxy := List.append_inj h12.1
      (by rw [(encodeCoord_spec x hx).1, (encodeCoord_spec x' hx').1])
    exact ⟨encodeCoord_inj x x' hx hx' hxy.1,
      encodeCoord_inj y y' hy hy' hxy.2,
      encodeCoord_inj z z' hz hz' h12.2⟩

/-- Witness for C2 amended: the fixed width at ordinary declared-range
coordinates, and injectivity applied at concrete width-representable
coordinates. -/
theorem c2_encode_injective_amended_witness :
    (getLocationId 0 100000 (-123)).length = 15 ∧
    ((-30000000 : Int) = -30000000 ∧ (-29999995 : Int) = -29999995 ∧
      (-29900001 : Int) = -29900001) :=
  ⟨c2_encode_injective_amended.1 0 100000 (-123),
   c2_encode_injective_amended.2 _ _ _ _ _ _ (by decide) (by decide) (by decide)
     (by decide) (by decide) (by decide) rfl⟩
